import Mathlib

/-!
Verification development for the `singleton-rs` crate.

The crate contains two generations of a process-wide singleton cell:

* `src/singleton.rs` — `Singleton<T>`: a lock-free cell made of an atomic
  `state : usize` (the `SingletonState` discriminants 0..3) and an atomic
  value pointer, with `get` / `get_opt` / `get_or_insert_with` / `finalize`
  and a `Drop` impl that finalizes.
* `src/preemptive.rs` — `PreemptiveSingleton<T>`: wraps `Singleton` with a
  payload `PreemptiveInner { thread_id, data }` and filters access by the
  current thread identity.
* `src/lib.rs` — a registry-based singleton generation whose
  `cleanup_register` appends `CleanUpRecord`s to a mutex-guarded queue and
  installs a `libc::atexit` callback on the registration that finds the
  queue empty.

The embedding below gives a sequential (single uninterrupted caller)
small-step-faithful semantics: every atomic operation on the cell is
recorded as an event in a trace, so properties about intermediate states
of an operation are statable.  Heap allocation is modelled by a counter of
fresh nonzero addresses and an association list from addresses to values;
`0` plays the role of the null pointer.  References returned by the API
are identified by the address of the underlying allocation.
-/

/-- A heap address; `0` is the null pointer. -/
abbrev Addr := Nat

/-- A thread identity (`std::thread::ThreadId`). -/
abbrev ThreadId := Nat

/-- The `repr(usize)` discriminants of `SingletonState` in singleton.rs. -/
def SingletonState.Initial : Nat := 0

/-- `SingletonState::Loading as usize`. -/
def SingletonState.Loading : Nat := 1

/-- `SingletonState::Ready as usize`. -/
def SingletonState.Ready : Nat := 2

/-- `SingletonState::Finalized as usize`. -/
def SingletonState.Finalized : Nat := 3

/-- The two atomic fields of `Singleton<T>` (singleton.rs):
`state: AtomicUsize` and `ptr: AtomicPtr<T>` (null modelled as `0`). -/
structure SingletonCell where
  state : Nat
  ptr : Addr
deriving DecidableEq

/-- A `CleanUpRecord` from lib.rs: a type-erased destructor function
pointer together with the data pointer it will free. -/
structure CleanUpRecord where
  f : Nat
  ptr : Addr
deriving DecidableEq

/-- One observable event of an operation: an atomic access to the cell
(recording the cell contents right after the access), or a call to
`Singleton::cleanup_register` with the given record. -/
inductive Event where
  | cellOp (c : SingletonCell)
  | register (rec : CleanUpRecord)
deriving DecidableEq

/-- `true` iff the trace contains a `cleanup_register` event. -/
def hasRegister (t : List Event) : Bool :=
  t.any fun e =>
    match e with
    | .register _ => true
    | .cellOp _ => false

/-- A cell together with its heap: the next fresh (nonzero) address the
allocator will hand out, and the live allocations. -/
structure Mem (α : Type) where
  cell : SingletonCell
  nextAddr : Addr
  heap : List (Addr × α)
deriving DecidableEq

/-- A freshly created singleton (`make_singleton!()` / `Singleton::new`):
state `Initial`, null pointer, empty heap. -/
def Mem.new (α : Type) : Mem α :=
  { cell := { state := SingletonState.Initial, ptr := 0 }, nextAddr := 1, heap := [] }

/-- Look up a live allocation (pointer dereference). -/
def heapGet {α : Type} (h : List (Addr × α)) (a : Addr) : Option α :=
  match h with
  | [] => none
  | (b, v) :: t => if b = a then some v else heapGet t a

/-- Free an allocation (`drop(Box::from_raw(p))`). -/
def heapRemove {α : Type} (h : List (Addr × α)) (a : Addr) : List (Addr × α) :=
  match h with
  | [] => []
  | (b, v) :: t => if b = a then t else (b, v) :: heapRemove t a

/-- How a call to an access operation ends. -/
inductive Outcome where
  | ok (a : Addr)
  | panicFinalized
  | panicStateShift
  | panicOccupied
  | diverge
  | undef
deriving DecidableEq

/-- Result of running `get` / `get_or_insert_with`: the outcome, the
memory afterwards, how many times the initializer was invoked, and the
trace of atomic events the operation performed. -/
structure RunResult (α : Type) where
  out : Outcome
  mem : Mem α
  calls : Nat
  trace : List Event
deriving DecidableEq

/-- Result of running `finalize` / `drop`: the memory afterwards, the
address freed (if any), and the trace of atomic events. -/
structure FinResult (α : Type) where
  mem : Mem α
  freed : Option Addr
  trace : List Event
deriving DecidableEq

namespace Singleton

variable {α : Type}

/-- `Singleton::get_opt` (singleton.rs:64-66): a single sequentially
consistent load of the pointer, `None` iff it is null. -/
def get_opt (m : Mem α) : Option Addr :=
  if m.cell.ptr = 0 then none else some m.cell.ptr

/-- `Singleton::get_or_insert_with` (singleton.rs:79-128), sequential
semantics (the single caller runs to completion with no interference).

Fast path: load the pointer; if non-null return it.  Slow path: CAS the
state from `Initial` to `Loading` (`cur_state` receives the previous
value).  If the previous state was `Loading`, a sequential execution
spins forever (`diverge`).  If it was `Initial`, the caller won: it runs
`f`, boxes the result at a fresh address, stores the pointer, CASes
`Loading → Ready` (which, uninterfered, succeeds), re-loads the pointer
and returns it (a null pointer here would be the `error_stateshift`
panic).  If it was `Ready`, the pointer is re-loaded — it is still the
null seen by the fast path, so this is the `error_stateshift` panic.
Any other previous state is the `error_finalized` panic. -/
def get_or_insert_with (f : Unit → α) (m : Mem α) : RunResult α :=
  if m.cell.ptr ≠ 0 then
    { out := .ok m.cell.ptr, mem := m, calls := 0, trace := [.cellOp m.cell] }
  else
    let cur_state := m.cell.state
    let c1 : SingletonCell :=
      if cur_state = SingletonState.Initial then
        { m.cell with state := SingletonState.Loading }
      else m.cell
    let t1 : List Event := [.cellOp m.cell, .cellOp c1]
    if cur_state = SingletonState.Loading then
      { out := .diverge, mem := { m with cell := c1 }, calls := 0, trace := t1 }
    else if cur_state = SingletonState.Initial then
      let a := m.nextAddr
      let c2 : SingletonCell := { c1 with ptr := a }
      let c3 : SingletonCell := { c2 with state := SingletonState.Ready }
      let mem2 : Mem α := { cell := c3, nextAddr := a + 1, heap := m.heap ++ [(a, f ())] }
      let t2 : List Event := t1 ++ [.cellOp c2, .cellOp c3, .cellOp c3]
      if a ≠ 0 then
        { out := .ok a, mem := mem2, calls := 1, trace := t2 }
      else
        { out := .panicStateShift, mem := mem2, calls := 1, trace := t2 }
    else if cur_state = SingletonState.Ready then
      { out := .panicStateShift, mem := { m with cell := c1 }, calls := 0,
        trace := t1 ++ [.cellOp c1] }
    else
      { out := .panicFinalized, mem := { m with cell := c1 }, calls := 0, trace := t1 }

/-- `Singleton::get` (singleton.rs:56-61): `get_or_insert_with` with the
type's default constructor. -/
def get [Inhabited α] (m : Mem α) : RunResult α :=
  get_or_insert_with (fun _ => (default : α)) m

/-- `Singleton::finalize` (singleton.rs:133-141): store `Finalized` into
the state, then swap the pointer with null; if the old pointer was
non-null, free it. -/
def finalize (m : Mem α) : FinResult α :=
  let c1 : SingletonCell := { m.cell with state := SingletonState.Finalized }
  let old := c1.ptr
  let c2 : SingletonCell := { c1 with ptr := 0 }
  if old = 0 then
    { mem := { m with cell := c2 }, freed := none, trace := [.cellOp c1, .cellOp c2] }
  else
    { mem := { cell := c2, nextAddr := m.nextAddr, heap := heapRemove m.heap old },
      freed := some old, trace := [.cellOp c1, .cellOp c2] }

/-- `impl Drop for Singleton` (singleton.rs:144-150): dropping the cell
runs `finalize`. -/
def drop (m : Mem α) : FinResult α :=
  finalize m

end Singleton

/-- The process-wide cleanup state of lib.rs: the mutex-guarded
`CLEANUP_QUEUE` vector, plus a count of how many times `libc::atexit`
was called to install `cleanup_callback` (the exit hook). -/
structure Registry where
  queue : List CleanUpRecord
  atexitInstalls : Nat
deriving DecidableEq

/-- The registry at process start: empty queue, no exit hook installed. -/
def Registry.empty : Registry :=
  { queue := [], atexitInstalls := 0 }

namespace Singleton

/-- `Singleton::cleanup_register` (lib.rs:56-64): under the queue's lock,
if the queue is empty install the `atexit` callback, then push the
record.  The lock is modelled by the call being a single sequential
step. -/
def cleanup_register (record : CleanUpRecord) (r : Registry) : Registry :=
  let r1 : Registry :=
    if r.queue.length = 0 then
      { r with atexitInstalls := r.atexitInstalls + 1 }
    else r
  { r1 with queue := r1.queue ++ [record] }

/-- `Singleton::cleanup_callback` (lib.rs:47-54): under the queue's lock,
invoke every registered destructor in registration order; modelled as the
list of data pointers freed, in order. -/
def cleanup_callback (r : Registry) : List Addr :=
  r.queue.map (fun it => it.ptr)

end Singleton

/-- A sequence of `cleanup_register` calls applied in order. -/
def registerAll (r : Registry) (recs : List CleanUpRecord) : Registry :=
  recs.foldl (fun r rec => Singleton.cleanup_register rec r) r

/-- `PreemptiveInner<T>` (preemptive.rs:5-8): the payload the exclusive
singleton stores in its inner shared cell. -/
structure PreemptiveInner (α : Type) where
  thread_id : ThreadId
  data : α
deriving DecidableEq

/-- A `PreemptiveSingleton<T>` (preemptive.rs:14-17) is a `Singleton`
cell whose payload is a `PreemptiveInner<T>`; its memory is the inner
cell's memory. -/
abbrev PMem (α : Type) := Mem (PreemptiveInner α)

namespace PreemptiveSingleton

variable {α : Type}

/-- `PreemptiveSingleton::get_opt` (preemptive.rs:57-64): read the inner
cell's `get_opt`; if present, dereference the payload and return it only
when its recorded `thread_id` equals the calling thread's identity
(`tid`); otherwise `None`. -/
def get_opt (tid : ThreadId) (m : PMem α) : Option Addr :=
  match Singleton.get_opt m with
  | some a =>
    match heapGet m.heap a with
    | some pre => if pre.thread_id = tid then some a else none
    | none => none
  | none => none

/-- `PreemptiveSingleton::get_or_insert_with` (preemptive.rs:67-81):
delegate to the inner cell with an initializer that tags the value with
the calling thread's identity; after the inner cell resolves, compare the
recorded owner to the caller — on mismatch this is the `error_occupied`
panic.  Dereferencing an address with no live allocation is undefined
behaviour (`undef`); it never happens in reachable states. -/
def get_or_insert_with (tid : ThreadId) (f : Unit → α) (m : PMem α) :
    RunResult (PreemptiveInner α) :=
  let r := Singleton.get_or_insert_with
    (fun _ => { thread_id := tid, data := f () }) m
  match r.out with
  | .ok a =>
    match heapGet r.mem.heap a with
    | some pre =>
      if pre.thread_id = tid then r else { r with out := .panicOccupied }
    | none => { r with out := .undef }
  | _ => r

/-- `PreemptiveSingleton::get` (preemptive.rs:48-53): `get_or_insert_with`
with the type's default constructor. -/
def get [Inhabited α] (tid : ThreadId) (m : PMem α) : RunResult (PreemptiveInner α) :=
  get_or_insert_with tid (fun _ => (default : α)) m

/-- `PreemptiveSingleton::finalize` (preemptive.rs:91-95): if the INNER
cell's `get_opt` (not the thread-identity-filtered one) reports a value,
delegate to the inner `finalize`; otherwise do nothing.  Note the calling
thread's identity is not consulted at all. -/
def finalize (m : PMem α) : FinResult (PreemptiveInner α) :=
  if (Singleton.get_opt m).isSome then Singleton.finalize m
  else { mem := m, freed := none, trace := [] }

/-- `impl Drop for PreemptiveSingleton` (preemptive.rs:98-104): dropping
the cell runs its `finalize`. -/
def drop (m : PMem α) : FinResult (PreemptiveInner α) :=
  finalize m

end PreemptiveSingleton

/-- Memories reachable from a fresh cell by completed API operations
(operation boundaries / quiescent points). -/
inductive Reachable {α : Type} : Mem α → Prop where
  | new : Reachable (Mem.new α)
  | step_get (f : Unit → α) (m : Mem α) :
      Reachable m → Reachable (Singleton.get_or_insert_with f m).mem
  | step_finalize (m : Mem α) :
      Reachable m → Reachable (Singleton.finalize m).mem

/-- The boundary invariant of the cell: the pointer is non-null exactly
in state `Ready`, and the allocator never hands out the null address. -/
def CellInv {α : Type} (m : Mem α) : Prop :=
  (m.cell.ptr ≠ 0 ↔ m.cell.state = SingletonState.Ready) ∧ m.nextAddr ≠ 0

theorem cellInv_get_or_insert_with {α : Type} (f : Unit → α) (m : Mem α)
    (h : CellInv m) : CellInv (Singleton.get_or_insert_with f m).mem := by
  obtain ⟨hiff, hna⟩ := h
  unfold Singleton.get_or_insert_with
  by_cases hp : m.cell.ptr ≠ 0
  · simp only [if_pos hp]
    exact ⟨hiff, hna⟩
  · simp only [if_neg hp]
    by_cases hL : m.cell.state = SingletonState.Loading
    · have hI : ¬m.cell.state = SingletonState.Initial := by
        rw [hL]; simp [SingletonState.Loading, SingletonState.Initial]
      simp only [if_neg hI, if_pos hL]
      exact ⟨hiff, hna⟩
    · by_cases hI : m.cell.state = SingletonState.Initial
      · simp only [if_pos hI, if_neg hL, CellInv]
        simp only [if_pos hna]
        exact ⟨iff_true_intro hna, Nat.succ_ne_zero _⟩
      · by_cases hR : m.cell.state = SingletonState.Ready
        · simp only [if_neg hL, if_neg hI, if_pos hR]
          exact ⟨hiff, hna⟩
        · simp only [if_neg hL, if_neg hI, if_neg hR]
          exact ⟨hiff, hna⟩

theorem cellInv_finalize {α : Type} (m : Mem α) (h : CellInv m) :
    CellInv (Singleton.finalize m).mem := by
  unfold Singleton.finalize
  by_cases hp : m.cell.ptr = 0
  · simp only [if_pos hp, CellInv]
    exact ⟨by simp [SingletonState.Finalized, SingletonState.Ready], h.2⟩
  · simp only [if_neg hp, CellInv]
    exact ⟨by simp [SingletonState.Finalized, SingletonState.Ready], h.2⟩

theorem reachable_cellInv {α : Type} (m : Mem α) (h : Reachable m) : CellInv m := by
  induction h with
  | new =>
    exact ⟨by simp [Mem.new, SingletonState.Initial, SingletonState.Ready], one_ne_zero⟩
  | step_get f m _ ih => exact cellInv_get_or_insert_with f m ih
  | step_finalize m _ ih => exact cellInv_finalize m ih

/-- C1: on a shared singleton cell, the initializer runs at most once:
`get_opt` is `none` before any `get`/`get_or_insert_with` has completed;
after the first completed call every subsequent `get`,
`get_or_insert_with` (with any initializer, which is not invoked again)
and `get_opt` returns a reference to the same underlying allocation
(address `1`), and the memory is unchanged, so this persists over any
number of subsequent calls. -/
theorem C1_initializer_at_most_once {α : Type} [Inhabited α] (f g : Unit → α) :
    Singleton.get_opt (Mem.new α) = none ∧
    (Singleton.get_or_insert_with f (Mem.new α)).out = .ok 1 ∧
    (Singleton.get_or_insert_with f (Mem.new α)).calls = 1 ∧
    Singleton.get_opt (Singleton.get_or_insert_with f (Mem.new α)).mem = some 1 ∧
    (Singleton.get_or_insert_with g (Singleton.get_or_insert_with f (Mem.new α)).mem).out
      = .ok 1 ∧
    (Singleton.get_or_insert_with g (Singleton.get_or_insert_with f (Mem.new α)).mem).calls
      = 0 ∧
    (Singleton.get_or_insert_with g (Singleton.get_or_insert_with f (Mem.new α)).mem).mem
      = (Singleton.get_or_insert_with f (Mem.new α)).mem ∧
    (Singleton.get (Singleton.get_or_insert_with f (Mem.new α)).mem).out = .ok 1 ∧
    (Singleton.get (Singleton.get_or_insert_with f (Mem.new α)).mem).calls = 0 ∧
    (Singleton.get (Singleton.get_or_insert_with f (Mem.new α)).mem).mem
      = (Singleton.get_or_insert_with f (Mem.new α)).mem :=
  ⟨rfl, rfl, rfl, rfl, rfl, rfl, rfl, rfl, rfl, rfl⟩

/-- C2 counterexample: a concrete winning run of `get_or_insert_with` on
a fresh cell performs exactly five atomic cell operations — among them
the `Loading → Ready` transition — and never calls `cleanup_register`:
no destructor entry is registered with the finalization registry, contrary
to the claim. -/
theorem C2_cex_init_performs_no_registration :
    (Singleton.get_or_insert_with (fun _ => (42 : Nat)) (Mem.new Nat)).trace =
      [Event.cellOp { state := SingletonState.Initial, ptr := 0 },
       Event.cellOp { state := SingletonState.Loading, ptr := 0 },
       Event.cellOp { state := SingletonState.Loading, ptr := 1 },
       Event.cellOp { state := SingletonState.Ready, ptr := 1 },
       Event.cellOp { state := SingletonState.Ready, ptr := 1 }] ∧
    hasRegister (Singleton.get_or_insert_with (fun _ => (42 : Nat)) (Mem.new Nat)).trace
      = false ∧
    (Singleton.get_or_insert_with (fun _ => (42 : Nat)) (Mem.new Nat)).mem.cell.state
      = SingletonState.Ready := by
  decide

/-- C2 amended: when `get_or_insert_with` wins the `Initial → Loading`
transition and constructs the value, it stores the pointer and
transitions `Loading → Ready` WITHOUT registering any destructor entry
with the finalization registry; the allocation is reclaimed only by
`finalize` (e.g. via `Drop`), which frees it. -/
theorem C2_amended_init_registers_nothing {α : Type} (f : Unit → α) :
    (Singleton.get_or_insert_with f (Mem.new α)).out = .ok 1 ∧
    (Singleton.get_or_insert_with f (Mem.new α)).mem.cell.state = SingletonState.Ready ∧
    hasRegister (Singleton.get_or_insert_with f (Mem.new α)).trace = false ∧
    (Singleton.finalize (Singleton.get_or_insert_with f (Mem.new α)).mem).freed = some 1 :=
  ⟨rfl, rfl, rfl, rfl⟩

/-- C3 counterexample: during a concrete winning `get_or_insert_with`
run, the third atomic operation (the pointer store) leaves the cell with
a non-null pointer while the state is still `Loading`; and during the
`finalize` that follows, the first atomic operation (the state store)
leaves the state `Finalized` while the pointer is still non-null.  So the
pointer is observable as non-null in non-`Ready` states, contrary to the
claim. -/
theorem C3_cex_transient_nonnull_outside_ready :
    ((Singleton.get_or_insert_with (fun _ => (42 : Nat)) (Mem.new Nat)).trace)[2]? =
      some (Event.cellOp { state := SingletonState.Loading, ptr := 1 }) ∧
    SingletonState.Loading ≠ SingletonState.Ready ∧
    ((Singleton.finalize
        (Singleton.get_or_insert_with (fun _ => (42 : Nat)) (Mem.new Nat)).mem).trace)[0]? =
      some (Event.cellOp { state := SingletonState.Finalized, ptr := 1 }) ∧
    SingletonState.Finalized ≠ SingletonState.Ready ∧
    (1 : Addr) ≠ 0 := by
  decide

/-- C3 amended: at every operation boundary (every memory reachable by
completed operations from a fresh cell) the value pointer is non-null
exactly when the state is `Ready`; within a single operation there are
transient windows (after the pointer store, before the `Loading → Ready`
CAS; and after the `Finalized` store, before the pointer swap) where the
pointer is non-null in a non-`Ready` state. -/
theorem C3_amended_boundary_nonnull_iff_ready {α : Type} (m : Mem α) (h : Reachable m) :
    m.cell.ptr ≠ 0 ↔ m.cell.state = SingletonState.Ready :=
  (reachable_cellInv m h).1

/-- Witness for C3 amended: the invariant holds at the concrete reachable
memory produced by one completed `get_or_insert_with` on a fresh cell. -/
theorem C3_amended_boundary_nonnull_iff_ready_witness :
    ((Singleton.get_or_insert_with (fun _ => (42 : Nat)) (Mem.new Nat)).mem.cell.ptr ≠ 0 ↔
      (Singleton.get_or_insert_with (fun _ => (42 : Nat)) (Mem.new Nat)).mem.cell.state
        = SingletonState.Ready) :=
  C3_amended_boundary_nonnull_iff_ready _
    (Reachable.step_get (fun _ => (42 : Nat)) (Mem.new Nat) Reachable.new)

/-- C4: after `finalize`, `get_opt` returns `none`, any
`get`/`get_or_insert_with` hits the fatal `error_finalized` panic (and
leaves the memory unchanged, so this persists), and `finalize` itself has
set the state to `Finalized` and freed the held allocation if one was
present. -/
theorem C4_finalized_cell_rejects_access {α : Type} [Inhabited α] (m : Mem α)
    (f : Unit → α) :
    Singleton.get_opt (Singleton.finalize m).mem = none ∧
    (Singleton.finalize m).mem.cell.state = SingletonState.Finalized ∧
    (Singleton.finalize m).freed = (if m.cell.ptr = 0 then none else some m.cell.ptr) ∧
    (Singleton.get_or_insert_with f (Singleton.finalize m).mem).out = .panicFinalized ∧
    (Singleton.get (Singleton.finalize m).mem).out = .panicFinalized ∧
    (Singleton.get_or_insert_with f (Singleton.finalize m).mem).mem
      = (Singleton.finalize m).mem := by
  refine ⟨?_, ?_, ?_, ?_, ?_, ?_⟩ <;>
    by_cases hp : m.cell.ptr = 0 <;>
      simp [Singleton.finalize, Singleton.get_opt, Singleton.get,
        Singleton.get_or_insert_with, hp, SingletonState.Initial,
        SingletonState.Loading, SingletonState.Ready, SingletonState.Finalized]

/-- C5: on an exclusive (preemptive) singleton whose live allocation `a`
records owner thread `A`, a `get`/`get_or_insert_with` from any other
thread `B` hits the fatal `error_occupied` panic and returns no value
(the memory is unchanged), while thread `A`'s `get_or_insert_with`,
`get_opt` keep succeeding with the same address `a` (memory unchanged, so
any number of repetitions behave identically, and the initializer is not
invoked). -/
theorem C5_nonowner_access_panics_occupied {α : Type} [Inhabited α] (g : Unit → α)
    (m : PMem α) (a : Addr) (A B : ThreadId) (v : α)
    (hcell : m.cell.ptr = a) (h0 : a ≠ 0)
    (ha : heapGet m.heap a = some { thread_id := A, data := v })
    (hAB : B ≠ A) :
    (PreemptiveSingleton.get_or_insert_with B g m).out = .panicOccupied ∧
    (PreemptiveSingleton.get_or_insert_with B g m).mem = m ∧
    (PreemptiveSingleton.get B m).out = .panicOccupied ∧
    (PreemptiveSingleton.get_or_insert_with A g m).out = .ok a ∧
    (PreemptiveSingleton.get_or_insert_with A g m).mem = m ∧
    (PreemptiveSingleton.get_or_insert_with A g m).calls = 0 ∧
    PreemptiveSingleton.get_opt A m = some a ∧
    PreemptiveSingleton.get_opt B m = none := by
  have hBA : ¬A = B := fun h => hAB h.symm
  have hptr : m.cell.ptr ≠ 0 := by rw [hcell]; exact h0
  refine ⟨?_, ?_, ?_, ?_, ?_, ?_, ?_, ?_⟩ <;>
    simp [PreemptiveSingleton.get_or_insert_with, PreemptiveSingleton.get,
      PreemptiveSingleton.get_opt, Singleton.get_or_insert_with, Singleton.get_opt,
      hptr, h0, hcell, ha, hBA]

/-- Witness for C5: the concrete occupied memory produced by thread `0`
initializing a fresh exclusive cell with value `42`; thread `1` panics
with the occupied violation, thread `0` keeps succeeding. -/
theorem C5_nonowner_access_panics_occupied_witness :
    (PreemptiveSingleton.get_or_insert_with 1 (fun _ => (7 : Nat))
      { cell := { state := SingletonState.Ready, ptr := 1 }, nextAddr := 2,
        heap := [(1, { thread_id := 0, data := 42 })] }).out = .panicOccupied ∧
    (PreemptiveSingleton.get_or_insert_with 1 (fun _ => (7 : Nat))
      { cell := { state := SingletonState.Ready, ptr := 1 }, nextAddr := 2,
        heap := [(1, { thread_id := 0, data := 42 })] }).mem =
      { cell := { state := SingletonState.Ready, ptr := 1 }, nextAddr := 2,
        heap := [(1, { thread_id := 0, data := 42 })] } ∧
    (PreemptiveSingleton.get 1
      { cell := { state := SingletonState.Ready, ptr := 1 }, nextAddr := 2,
        heap := [(1, { thread_id := 0, data := (42 : Nat) })] }).out = .panicOccupied ∧
    (PreemptiveSingleton.get_or_insert_with 0 (fun _ => (7 : Nat))
      { cell := { state := SingletonState.Ready, ptr := 1 }, nextAddr := 2,
        heap := [(1, { thread_id := 0, data := 42 })] }).out = .ok 1 ∧
    (PreemptiveSingleton.get_or_insert_with 0 (fun _ => (7 : Nat))
      { cell := { state := SingletonState.Ready, ptr := 1 }, nextAddr := 2,
        heap := [(1, { thread_id := 0, data := 42 })] }).mem =
      { cell := { state := SingletonState.Ready, ptr := 1 }, nextAddr := 2,
        heap := [(1, { thread_id := 0, data := 42 })] } ∧
    (PreemptiveSingleton.get_or_insert_with 0 (fun _ => (7 : Nat))
      { cell := { state := SingletonState.Ready, ptr := 1 }, nextAddr := 2,
        heap := [(1, { thread_id := 0, data := 42 })] }).calls = 0 ∧
    PreemptiveSingleton.get_opt 0
      { cell := { state := SingletonState.Ready, ptr := 1 }, nextAddr := 2,
        heap := [(1, { thread_id := 0, data := (42 : Nat) })] } = some 1 ∧
    PreemptiveSingleton.get_opt 1
      { cell := { state := SingletonState.Ready, ptr := 1 }, nextAddr := 2,
        heap := [(1, { thread_id := 0, data := (42 : Nat) })] } = none :=
  C5_nonowner_access_panics_occupied (fun _ => (7 : Nat))
    { cell := { state := SingletonState.Ready, ptr := 1 }, nextAddr := 2,
      heap := [(1, { thread_id := 0, data := 42 })] }
    1 0 1 42 rfl (by decide) rfl (by decide)

/-- C6: on an exclusive singleton whose inner cell is `Ready` with a live
allocation recording owner `A`, `get_opt` from any other thread `B`
returns `none` (never a present value), while for the owner it returns
the value — so to a non-owner the cell is indistinguishable from an
uninitialized one.  (`get_opt` has no panic outcome: its model returns an
`Option` and the source contains no panic path.) -/
theorem C6_nonowner_get_opt_absent {α : Type} (m : PMem α) (a : Addr)
    (A B : ThreadId) (v : α)
    (hready : m.cell.state = SingletonState.Ready)
    (hcell : m.cell.ptr = a) (h0 : a ≠ 0)
    (ha : heapGet m.heap a = some { thread_id := A, data := v })
    (hAB : B ≠ A) :
    PreemptiveSingleton.get_opt B m = none ∧
    PreemptiveSingleton.get_opt A m = some a := by
  have hBA : ¬A = B := fun h => hAB h.symm
  have hptr : m.cell.ptr ≠ 0 := by rw [hcell]; exact h0
  constructor <;>
    simp [PreemptiveSingleton.get_opt, Singleton.get_opt, hptr, h0, hcell, ha, hBA]

/-- Witness for C6: the concrete occupied memory owned by thread `0`;
thread `1` observes `none`, thread `0` observes the value. -/
theorem C6_nonowner_get_opt_absent_witness :
    PreemptiveSingleton.get_opt 1
      { cell := { state := SingletonState.Ready, ptr := 1 }, nextAddr := 2,
        heap := [(1, { thread_id := 0, data := (42 : Nat) })] } = none ∧
    PreemptiveSingleton.get_opt 0
      { cell := { state := SingletonState.Ready, ptr := 1 }, nextAddr := 2,
        heap := [(1, { thread_id := 0, data := (42 : Nat) })] } = some 1 :=
  C6_nonowner_get_opt_absent
    { cell := { state := SingletonState.Ready, ptr := 1 }, nextAddr := 2,
      heap := [(1, { thread_id := 0, data := 42 })] }
    1 0 1 42 rfl rfl (by decide) rfl (by decide)

theorem registerAll_queue (recs : List CleanUpRecord) (r : Registry) :
    (registerAll r recs).queue = r.queue ++ recs := by
  induction recs generalizing r with
  | nil => simp [registerAll]
  | cons rec rest ih =>
    have step : (Singleton.cleanup_register rec r).queue = r.queue ++ [rec] := by
      unfold Singleton.cleanup_register
      by_cases h : r.queue.length = 0 <;> simp [h]
    calc (registerAll r (rec :: rest)).queue
        = (registerAll (Singleton.cleanup_register rec r) rest).queue := rfl
      _ = (Singleton.cleanup_register rec r).queue ++ rest := ih _
      _ = r.queue ++ (rec :: rest) := by rw [step]; simp

theorem registerAll_installs_of_nonempty (recs : List CleanUpRecord) (r : Registry)
    (h : r.queue ≠ []) :
    (registerAll r recs).atexitInstalls = r.atexitInstalls := by
  induction recs generalizing r with
  | nil => rfl
  | cons rec rest ih =>
    have hlen : ¬r.queue.length = 0 := by simpa using h
    have step : Singleton.cleanup_register rec r = { r with queue := r.queue ++ [rec] } := by
      unfold Singleton.cleanup_register
      simp [hlen]
    show (registerAll (Singleton.cleanup_register rec r) rest).atexitInstalls = _
    rw [step, ih _ (by simp)]

/-- C7: a nonempty sequence of `cleanup_register` calls starting from the
empty registry appends the entries in call order, and the process-exit
callback is installed (`atexit` called) exactly once — by the first call,
which is the one that finds the queue empty immediately before its
insertion; no later call reinstalls it. -/
theorem C7_exit_hook_installed_exactly_once (rec : CleanUpRecord)
    (recs : List CleanUpRecord) :
    Singleton.cleanup_register rec Registry.empty
      = { queue := [rec], atexitInstalls := 1 } ∧
    (registerAll Registry.empty (rec :: recs)).queue = rec :: recs ∧
    (registerAll Registry.empty (rec :: recs)).atexitInstalls = 1 := by
  have h1 : Singleton.cleanup_register rec Registry.empty
      = { queue := [rec], atexitInstalls := 1 } := by
    unfold Singleton.cleanup_register Registry.empty
    simp
  refine ⟨h1, ?_, ?_⟩
  · have h2 := registerAll_queue (rec :: recs) Registry.empty
    simpa [Registry.empty] using h2
  · show (registerAll (Singleton.cleanup_register rec Registry.empty) recs).atexitInstalls = 1
    rw [h1, registerAll_installs_of_nonempty recs _ (by simp)]

/-- C8: dropping a shared singleton cell runs `finalize`: the state
becomes `Finalized`, the pointer becomes null, and the held allocation,
if any, is freed — automatic finalize-on-destruction is provided by the
shared cell itself. -/
theorem C8_drop_finalizes {α : Type} (m : Mem α) :
    Singleton.drop m = Singleton.finalize m ∧
    (Singleton.drop m).mem.cell.state = SingletonState.Finalized ∧
    (Singleton.drop m).mem.cell.ptr = 0 ∧
    (Singleton.drop m).freed = (if m.cell.ptr = 0 then none else some m.cell.ptr) := by
  refine ⟨rfl, ?_, ?_, ?_⟩ <;>
    by_cases hp : m.cell.ptr = 0 <;>
      simp [Singleton.drop, Singleton.finalize, hp]

/-- C9: `finalize` is idempotent and never frees the same allocation
twice: it nulls the pointer before dropping, so a second `finalize` (or a
`finalize` of a never-initialized cell) observes a null pointer, frees
nothing, changes nothing, and leaves the state `Finalized`. -/
theorem C9_finalize_idempotent_no_double_free {α : Type} (m : Mem α) :
    (Singleton.finalize m).mem.cell.ptr = 0 ∧
    (Singleton.finalize m).mem.cell.state = SingletonState.Finalized ∧
    (Singleton.finalize (Singleton.finalize m).mem).freed = none ∧
    (Singleton.finalize (Singleton.finalize m).mem).mem = (Singleton.finalize m).mem ∧
    (Singleton.finalize (Mem.new α)).freed = none := by
  refine ⟨?_, ?_, ?_, ?_, ?_⟩ <;>
    by_cases hp : m.cell.ptr = 0 <;>
      simp [Singleton.finalize, Mem.new, hp]

/-- C10: `PreemptiveSingleton::finalize` applies no thread-identity
check: it consults the inner shared cell's `get_opt` (not the
identity-filtered one), so on a memory whose live allocation records
owner `A` it coincides with the inner `Singleton::finalize` and frees the
allocation, even though a non-owner thread `B` observes the cell as
absent; on a memory with no held value it is a no-op. -/
theorem C10_preemptive_finalize_no_identity_check {α : Type} (m mEmpty : PMem α)
    (a : Addr) (A B : ThreadId) (v : α)
    (hcell : m.cell.ptr = a) (h0 : a ≠ 0)
    (ha : heapGet m.heap a = some { thread_id := A, data := v })
    (hAB : B ≠ A)
    (hempty : mEmpty.cell.ptr = 0) :
    PreemptiveSingleton.get_opt B m = none ∧
    PreemptiveSingleton.finalize m = Singleton.finalize m ∧
    (PreemptiveSingleton.finalize m).freed = some a ∧
    (PreemptiveSingleton.finalize m).mem.cell.state = SingletonState.Finalized ∧
    PreemptiveSingleton.finalize mEmpty = { mem := mEmpty, freed := none, trace := [] } := by
  have hBA : ¬A = B := fun h => hAB h.symm
  have hptr : m.cell.ptr ≠ 0 := by rw [hcell]; exact h0
  refine ⟨?_, ?_, ?_, ?_, ?_⟩ <;>
    simp [PreemptiveSingleton.get_opt, PreemptiveSingleton.finalize,
      Singleton.get_opt, Singleton.finalize, hptr, h0, hcell, ha, hBA, hempty]

/-- Witness for C10: thread `0` owns the concrete occupied cell; for
thread `1` the cell reads as absent, yet `finalize` frees allocation `1`;
on a fresh (empty) cell `finalize` is a no-op. -/
theorem C10_preemptive_finalize_no_identity_check_witness :
    PreemptiveSingleton.get_opt 1
      { cell := { state := SingletonState.Ready, ptr := 1 }, nextAddr := 2,
        heap := [(1, { thread_id := 0, data := (42 : Nat) })] } = none ∧
    PreemptiveSingleton.finalize
      { cell := { state := SingletonState.Ready, ptr := 1 }, nextAddr := 2,
        heap := [(1, { thread_id := 0, data := (42 : Nat) })] } =
      Singleton.finalize
        { cell := { state := SingletonState.Ready, ptr := 1 }, nextAddr := 2,
          heap := [(1, { thread_id := 0, data := (42 : Nat) })] } ∧
    (PreemptiveSingleton.finalize
      { cell := { state := SingletonState.Ready, ptr := 1 }, nextAddr := 2,
        heap := [(1, { thread_id := 0, data := (42 : Nat) })] }).freed = some 1 ∧
    (PreemptiveSingleton.finalize
      { cell := { state := SingletonState.Ready, ptr := 1 }, nextAddr := 2,
        heap := [(1, { thread_id := 0, data := (42 : Nat) })] }).mem.cell.state
      = SingletonState.Finalized ∧
    PreemptiveSingleton.finalize (Mem.new (PreemptiveInner Nat))
      = { mem := Mem.new (PreemptiveInner Nat), freed := none, trace := [] } :=
  C10_preemptive_finalize_no_identity_check
    { cell := { state := SingletonState.Ready, ptr := 1 }, nextAddr := 2,
      heap := [(1, { thread_id := 0, data := 42 })] }
    (Mem.new (PreemptiveInner Nat))
    1 0 1 42 rfl (by decide) rfl (by decide) rfl
